import Mathlib

/-!
Shallow embedding of the release-health session subsystem of
sentry-rust (sentry-core/src/session.rs): the per-session state machine
(Session) and the batching flusher (SessionFlusher) with its
itemized queue and hourly aggregation.

Machine integers (the u32/u64 counters) are modelled as Nat: no counter
in this subsystem is ever decremented or wrapped, and the only arithmetic
is increment-by-one, so overflow plays no role in the claims.  Clock
reads (Utc::now, Instant::now, Instant::elapsed) and Uuid::new_v4 are
modelled as explicit parameters.  Wall timestamps are Nat seconds since
the epoch; chrono duration_trunc with a one-hour span becomes flooring
to a multiple of 3600.
-/

/-- Severity of an event, ordered Debug < Info < Warning < Error < Fatal
(protocol Level). -/
inductive Level where
  | Debug
  | Info
  | Warning
  | Error
  | Fatal
deriving DecidableEq, Repr

/-- Numeric rank of a level, used for the ordered comparison. -/
def Level.toNat : Level → Nat
  | .Debug => 0
  | .Info => 1
  | .Warning => 2
  | .Error => 3
  | .Fatal => 4

/-- The test level greater-or-equal Error from update_from_event. -/
def Level.isAtLeastError (l : Level) : Bool :=
  decide (Level.toNat Level.Error ≤ l.toNat)

/-- Mechanism attached to an exception; handled is a tri-state
(absent / true / false). -/
structure Mechanism where
  handled : Option Bool
deriving DecidableEq, Repr

/-- One exception value of an event, with its optional mechanism. -/
structure Exception where
  mechanism : Option Mechanism
deriving DecidableEq, Repr

/-- The values container of the protocol (event.exception.values). -/
structure Values where
  values : List Exception
deriving DecidableEq, Repr

/-- The slice of a protocol Event that update_from_event reads: the
severity level and the exception values. -/
structure Event where
  level : Level
  exception : Values
deriving DecidableEq, Repr

/-- Session status (protocol SessionStatus). -/
inductive SessionStatus where
  | Ok
  | Crashed
  | Abnormal
  | Exited
deriving DecidableEq, Repr

/-- Session attributes captured once at session creation
(protocol SessionAttributes). -/
structure SessionAttributes where
  release : String
  environment : Option String
  ip_address : Option String
  user_agent : Option String
deriving DecidableEq, Repr

/-- Serializable session delta (protocol SessionUpdate).  The uuid
session id is modelled as a Nat and the started wall timestamp as Nat
seconds. -/
structure SessionUpdate where
  session_id : Nat
  distinct_id : Option String
  sequence : Option Nat
  timestamp : Option Nat
  started : Nat
  init : Bool
  duration : Option Nat
  status : SessionStatus
  errors : Nat
  attributes : SessionAttributes
deriving DecidableEq, Repr

/-- The mutable session state: its pending delta, the monotonic creation
instant (a Nat tick) and the dirty flag.  The client handle of the Rust
struct is only used on drop and is not part of any claim, so it is not
modelled. -/
structure Session where
  session_update : SessionUpdate
  started : Nat
  dirty : Bool
deriving DecidableEq, Repr

/-- User identity as read by Session::from_stack. -/
structure User where
  id : Option String
  email : Option String
  username : Option String
deriving DecidableEq, Repr

/-- The client options from_stack reads: release and environment. -/
structure ClientOptions where
  release : Option String
  environment : Option String
deriving DecidableEq, Repr

/-- The client as seen by from_stack: just its options. -/
structure Client where
  options : ClientOptions
deriving DecidableEq, Repr

/-- The scope slice from_stack reads: the optional user. -/
structure Scope where
  user : Option User
deriving DecidableEq, Repr

/-- A stack layer: optional client plus scope. -/
structure StackLayer where
  client : Option Client
  scope : Scope
deriving DecidableEq, Repr

/-- Session::from_stack.  Returns none when the layer has no client or
the options carry no release; otherwise builds the initial session.
The generated uuid, the wall clock and the monotonic clock are passed
in as session_id, now_wall and now_mono. -/
def Session.from_stack (stack : StackLayer) (session_id : Nat)
    (now_wall : Nat) (now_mono : Nat) : Option Session := do
  let client ← stack.client
  let options := client.options
  let user := stack.scope.user
  let distinct_id := user.bind fun u =>
    (u.id.orElse fun _ => u.email).orElse fun _ => u.username
  let release ← options.release
  some {
    session_update := {
      session_id := session_id
      distinct_id := distinct_id
      sequence := none
      timestamp := none
      started := now_wall
      init := true
      duration := none
      status := SessionStatus.Ok
      errors := 0
      attributes := {
        release := release
        environment := options.environment
        ip_address := none
        user_agent := none } }
    started := now_mono
    dirty := true }

/-- Whether an exception carries a mechanism whose handled flag is the
explicit value false (the crash test of update_from_event). -/
def Exception.isUnhandled (e : Exception) : Bool :=
  match e.mechanism with
  | some m => m.handled == some false
  | none => false

/-- The exception-scanning loop of update_from_event: walks the list,
setting has error on every element, and commits to a crash at the first
unhandled exception, stopping there.  Returns (has error, is crash). -/
def scanExceptions : List Exception → Bool → Bool × Bool
  | [], has_err => (has_err, false)
  | exc :: rest, _ =>
    if Exception.isUnhandled exc then (true, true)
    else scanExceptions rest true

/-- Session::update_from_event: a no-op on a non-Ok session; otherwise
scans the exceptions, applies the crash transition when one was
unhandled, and counts the event as an error (incrementing errors and
setting dirty) when the level is at least Error or an exception is
present. -/
def Session.update_from_event (s : Session) (event : Event) : Session :=
  if s.session_update.status ≠ SessionStatus.Ok then
    s
  else
    let scanned := scanExceptions event.exception.values event.level.isAtLeastError
    let has_error := scanned.1
    let is_crash := scanned.2
    let su :=
      if is_crash then
        { s.session_update with status := SessionStatus.Crashed }
      else s.session_update
    if has_error then
      { s with session_update := { su with errors := su.errors + 1 }, dirty := true }
    else
      { s with session_update := su }

/-- Session::close: on an Ok session records the elapsed monotonic
duration, transitions to Exited and marks dirty; otherwise a no-op.
The elapsed reading of the monotonic clock is passed in. -/
def Session.close (s : Session) (elapsed : Nat) : Session :=
  if s.session_update.status = SessionStatus.Ok then
    { s with
      session_update := { s.session_update with
        duration := some elapsed
        status := SessionStatus.Exited }
      dirty := true }
  else s

/-- Session::create_envelope_item: when dirty, emits a clone of the
current delta, then clears init and dirty; otherwise emits nothing. -/
def Session.create_envelope_item (s : Session) : Option SessionUpdate × Session :=
  if s.dirty then
    (some s.session_update,
     { s with session_update := { s.session_update with init := false }, dirty := false })
  else
    (none, s)

/-- Delivery mode (clientoptions SessionMode): Application is itemized
delivery, Request is aggregated delivery. -/
inductive SessionMode where
  | Application
  | Request
deriving DecidableEq, Repr

/-- The envelope size ceiling MAX_SESSION_ITEMS. -/
def MAX_SESSION_ITEMS : Nat := 100

/-- One hourly aggregate bucket (protocol AggregateItem). -/
structure AggregateItem where
  started : Nat
  distinct_id : Option String
  exited : Nat
  errored : Nat
  abnormal : Nat
  crashed : Nat
deriving DecidableEq, Repr

/-- The open aggregate bucket set with its shared attributes
(protocol SessionAggregates). -/
structure SessionAggregates where
  aggregates : List AggregateItem
  attributes : SessionAttributes
deriving DecidableEq, Repr

/-- The shared pending state of the flusher (the SessionQueue behind the
mutex): the itemized queue and the optional open aggregate set. -/
structure FlusherState where
  queue : List SessionUpdate
  aggregate : Option SessionAggregates
deriving DecidableEq, Repr

/-- One transport-level batch handed to send_envelope: either the
aggregate envelope or an envelope of individual session updates. -/
inductive OutboundUnit where
  | aggregate (a : SessionAggregates)
  | sessions (items : List SessionUpdate)
deriving DecidableEq, Repr

/-- Flooring of a wall timestamp (seconds) to its containing calendar
hour: chrono duration_trunc with a one-hour span. -/
def hourTrunc (t : Nat) : Nat :=
  t / 3600 * 3600

/-- The outcome tally of the enqueue aggregation: Exited with zero
errors bumps exited, Exited with errors bumps errored, Crashed bumps
crashed, Abnormal bumps abnormal, and Ok bumps nothing. -/
def bumpGroup (g : AggregateItem) (status : SessionStatus) (errors : Nat) : AggregateItem :=
  match status with
  | SessionStatus.Exited =>
    if errors > 0 then { g with errored := g.errored + 1 }
    else { g with exited := g.exited + 1 }
  | SessionStatus.Crashed => { g with crashed := g.crashed + 1 }
  | SessionStatus.Abnormal => { g with abnormal := g.abnormal + 1 }
  | SessionStatus.Ok => g

/-- Whether a bucket matches the lookup key of the enqueue aggregation:
same truncated start hour and same distinct id. -/
def AggregateItem.matches (g : AggregateItem) (started : Nat)
    (distinct_id : Option String) : Bool :=
  g.started == started && g.distinct_id == distinct_id

/-- Find-or-create step of the enqueue aggregation: the first bucket
matching (started, distinct id) is bumped in place; when none matches a
fresh zero bucket is pushed at the end and bumped. -/
def updateAggregates (l : List AggregateItem) (started : Nat)
    (distinct_id : Option String) (status : SessionStatus) (errors : Nat) :
    List AggregateItem :=
  match l with
  | [] => [bumpGroup ⟨started, distinct_id, 0, 0, 0, 0⟩ status errors]
  | g :: rest =>
    if g.matches started distinct_id then bumpGroup g status errors :: rest
    else g :: updateAggregates rest started distinct_id status errors

/-- The whole aggregate branch of enqueue acting on the optional open
set: get-or-insert the set (seeding its attributes from this update),
then fold the update into the bucket list keyed by its truncated hour
and distinct id. -/
def aggFold (aggregate : Option SessionAggregates) (su : SessionUpdate) :
    SessionAggregates :=
  let a := aggregate.getD { aggregates := [], attributes := su.attributes }
  { a with
    aggregates :=
      updateAggregates a.aggregates (hourTrunc su.started) su.distinct_id
        su.status su.errors }

/-- The item loop of SessionFlusher::flush: adds updates to the current
envelope, and whenever the envelope already holds MAX_SESSION_ITEMS
items sends it and starts a fresh one; the last envelope is sent after
the loop. -/
def flushLoop : List SessionUpdate → List SessionUpdate → Nat → List (List SessionUpdate)
  | [], env, _ => [env]
  | su :: rest, env, items =>
    if MAX_SESSION_ITEMS ≤ items then
      env :: flushLoop rest [su] 1
    else
      flushLoop rest (env ++ [su]) (items + 1)

/-- SessionFlusher::flush: takes the whole pending state out of the
lock, leaving it empty, then (aggregate envelope first, itemized chunks
after) hands each envelope to the transport only when one is attached;
without a transport every envelope is dropped.  Returns the emptied
state and the envelopes actually sent. -/
def SessionFlusher.flush (st : FlusherState) (hasTransport : Bool) :
    FlusherState × List OutboundUnit :=
  let queue := st.queue
  let aggregate := st.aggregate
  let emptied : FlusherState := { queue := [], aggregate := none }
  let aggSent : List OutboundUnit :=
    match aggregate with
    | some a => if hasTransport then [OutboundUnit.aggregate a] else []
    | none => []
  if queue.isEmpty then
    (emptied, aggSent)
  else
    let chunks := flushLoop queue [] 0
    (emptied,
     aggSent ++ if hasTransport then chunks.map OutboundUnit.sessions else [])

/-- SessionFlusher::enqueue: under Application mode, or for a non-init
update, pushes onto the itemized queue and flushes synchronously when
the queue reached MAX_SESSION_ITEMS; otherwise (Request mode, init
update) folds the update into the open aggregate set.  Returns the new
pending state and the envelopes sent by a triggered flush. -/
def SessionFlusher.enqueue (st : FlusherState) (su : SessionUpdate)
    (mode : SessionMode) (hasTransport : Bool) :
    FlusherState × List OutboundUnit :=
  if mode = SessionMode.Application ∨ su.init = false then
    let q := st.queue ++ [su]
    if MAX_SESSION_ITEMS ≤ q.length then
      SessionFlusher.flush { st with queue := q } hasTransport
    else
      ({ st with queue := q }, [])
  else
    ({ st with aggregate := some (aggFold st.aggregate su) }, [])

/-- One step of a sequential enqueue run: enqueue the update into the
pending state and append whatever a triggered flush sent. -/
def enqueueStep (mode : SessionMode) (hasTransport : Bool)
    (acc : FlusherState × List OutboundUnit) (su : SessionUpdate) :
    FlusherState × List OutboundUnit :=
  let r := SessionFlusher.enqueue acc.1 su mode hasTransport
  (r.1, acc.2 ++ r.2)

/-- Sequential enqueue of a list of updates, collecting every envelope
sent by the triggered flushes along the way. -/
def enqueueAll (st : FlusherState) (us : List SessionUpdate)
    (mode : SessionMode) (hasTransport : Bool) :
    FlusherState × List OutboundUnit :=
  us.foldl (enqueueStep mode hasTransport) (st, [])

/-- Whether an event is classified as an error by update_from_event:
level at least Error, or at least one exception present. -/
def Event.isError (e : Event) : Bool :=
  e.level.isAtLeastError || !e.exception.values.isEmpty

/-- Whether an event makes update_from_event commit to a crash: some
exception value is unhandled. -/
def Event.isCrash (e : Event) : Bool :=
  e.exception.values.any Exception.isUnhandled

/-- Feeding a sequence of events to a session, one update_from_event
call per event. -/
def runEvents (s : Session) (es : List Event) : Session :=
  es.foldl Session.update_from_event s

/-- The reference count of error events in a trace, stopping at the
first crash event (inclusive): events applied after the session turned
non-Ok do not count. -/
def countErrors : List Event → Nat
  | [] => 0
  | e :: rest =>
    (if e.isError then 1 else 0) + (if e.isCrash then 0 else countErrors rest)

/-- One step of a session lifecycle trace: consuming an event, closing,
or emitting a delta via create_envelope_item. -/
inductive SessionOp where
  | event (e : Event)
  | close (elapsed : Nat)
  | emit
deriving DecidableEq, Repr

/-- Applying one lifecycle step to a session together with the list of
deltas emitted so far. -/
def applyOp : Session × List SessionUpdate → SessionOp → Session × List SessionUpdate
  | (s, out), SessionOp.event e => (s.update_from_event e, out)
  | (s, out), SessionOp.close t => (s.close t, out)
  | (s, out), SessionOp.emit =>
    let r := s.create_envelope_item
    match r.1 with
    | some u => (r.2, out ++ [u])
    | none => (r.2, out)

/-- Running a whole lifecycle trace from a session, starting with no
emitted delta. -/
def runOps (s : Session) (ops : List SessionOp) : Session × List SessionUpdate :=
  ops.foldl applyOp (s, [])

/-- The init discipline of an emission history: while nothing was
emitted the session still has init set; once something was emitted, the
first delta carries init true, every later delta carries init false,
and the init flag of the session is cleared. -/
def initOk (s : Session) (out : List SessionUpdate) : Prop :=
  match out with
  | [] => s.session_update.init = true
  | u :: rest =>
    u.init = true ∧ (∀ v ∈ rest, v.init = false) ∧ s.session_update.init = false

/-- The crash component of the scan equals an existence test over the
whole list. -/
lemma scanExceptions_snd (l : List Exception) (b : Bool) :
    (scanExceptions l b).2 = l.any Exception.isUnhandled := by
  induction l generalizing b with
  | nil => simp [scanExceptions]
  | cons x rest ih =>
    by_cases h : x.isUnhandled = true
    · simp [scanExceptions, h]
    · simp [scanExceptions, h, ih]

/-- The error component of the scan: the incoming flag, forced to true
as soon as the list is nonempty. -/
lemma scanExceptions_fst (l : List Exception) (b : Bool) :
    (scanExceptions l b).1 = (b || !l.isEmpty) := by
  induction l generalizing b with
  | nil => simp [scanExceptions]
  | cons x rest ih =>
    by_cases h : x.isUnhandled = true
    · simp [scanExceptions, h]
    · simp [scanExceptions, h, ih]

/-- update_from_event on a non-Ok session is the identity. -/
lemma update_from_event_nonok (s : Session) (e : Event)
    (h : s.session_update.status ≠ SessionStatus.Ok) :
    s.update_from_event e = s := by
  simp [Session.update_from_event, h]

/-- Closed form of update_from_event on an Ok session, phrased with the
derived event classifications. -/
lemma update_from_event_ok (s : Session) (e : Event)
    (h : s.session_update.status = SessionStatus.Ok) :
    s.update_from_event e =
      (let su1 :=
        if e.isCrash then { s.session_update with status := SessionStatus.Crashed }
        else s.session_update
       if e.isError then
         { s with session_update := { su1 with errors := su1.errors + 1 }, dirty := true }
       else { s with session_update := su1 }) := by
  have h1 : (scanExceptions e.exception.values e.level.isAtLeastError).1 = e.isError :=
    scanExceptions_fst _ _
  have h2 : (scanExceptions e.exception.values e.level.isAtLeastError).2 = e.isCrash :=
    scanExceptions_snd _ _
  simp only [Session.update_from_event, h1, h2, h, ne_eq, not_true_eq_false,
    if_false, ite_false, ite_true, reduceIte]

/-- Status after an event on an Ok session: Crashed on a crash event,
Ok otherwise. -/
lemma update_status_ok (s : Session) (e : Event)
    (h : s.session_update.status = SessionStatus.Ok) :
    (s.update_from_event e).session_update.status =
      if e.isCrash then SessionStatus.Crashed else SessionStatus.Ok := by
  rw [update_from_event_ok s e h]
  by_cases hc : e.isCrash = true <;> by_cases he : e.isError = true <;>
    simp [hc, he, h]

/-- Error counter after an event on an Ok session: incremented exactly
on error events. -/
lemma update_errors_ok (s : Session) (e : Event)
    (h : s.session_update.status = SessionStatus.Ok) :
    (s.update_from_event e).session_update.errors =
      s.session_update.errors + (if e.isError then 1 else 0) := by
  rw [update_from_event_ok s e h]
  by_cases hc : e.isCrash = true <;> by_cases he : e.isError = true <;>
    simp [hc, he]

/-- update_from_event never touches the init flag. -/
lemma update_init (s : Session) (e : Event) :
    (s.update_from_event e).session_update.init = s.session_update.init := by
  by_cases h : s.session_update.status = SessionStatus.Ok
  · rw [update_from_event_ok s e h]
    by_cases hc : e.isCrash = true <;> by_cases he : e.isError = true <;>
      simp [hc, he]
  · rw [update_from_event_nonok s e h]

/-- close never touches the init flag. -/
lemma close_init (s : Session) (t : Nat) :
    (s.close t).session_update.init = s.session_update.init := by
  by_cases h : s.session_update.status = SessionStatus.Ok <;> simp [Session.close, h]

/-- C2: for every event applied to a session with status Ok, the
session transitions to Crashed if and only if some exception value of
the event carries a mechanism with handled false; no status other than
Ok or Crashed can result from the event path, and the scanning loop
commits at the first unhandled exception, with the rest of the list
never inspected. -/
theorem crash_detection (s : Session) (e : Event)
    (h : s.session_update.status = SessionStatus.Ok) :
    ((s.update_from_event e).session_update.status = SessionStatus.Crashed ↔
      ∃ exc ∈ e.exception.values, Exception.isUnhandled exc = true)
    ∧ ((s.update_from_event e).session_update.status = SessionStatus.Crashed ∨
       (s.update_from_event e).session_update.status = SessionStatus.Ok)
    ∧ (∀ (exc : Exception) (rest : List Exception) (b : Bool),
        Exception.isUnhandled exc = true →
        scanExceptions (exc :: rest) b = (true, true)) := by
  refine ⟨?_, ?_, ?_⟩
  · rw [update_status_ok s e h]
    by_cases hc : e.isCrash = true
    · simp only [hc, if_true, reduceIte]
      simp only [Event.isCrash, List.any_eq_true] at hc
      simpa using hc
    · simp only [hc, if_false, reduceIte]
      constructor
      · intro hfalse; cases hfalse
      · intro hex
        exfalso
        apply hc
        simp only [Event.isCrash, List.any_eq_true]
        simpa using hex
  · rw [update_status_ok s e h]
    by_cases hc : e.isCrash = true <;> simp [hc]
  · intro exc rest b hu
    simp [scanExceptions, hu]

/-- Shared example data for the concrete witnesses. -/
def exampleAttrs : SessionAttributes :=
  { release := "my-app@1.0.0", environment := some "production",
    ip_address := none, user_agent := none }

/-- A concrete non-init exited update. -/
def exampleUpdate : SessionUpdate :=
  { session_id := 1, distinct_id := none, sequence := none, timestamp := none,
    started := 7205, init := false, duration := none,
    status := SessionStatus.Exited, errors := 0, attributes := exampleAttrs }

/-- A concrete freshly created session (status Ok, init and dirty set). -/
def exampleSession : Session :=
  { session_update :=
      { exampleUpdate with init := true, status := SessionStatus.Ok }
    started := 0, dirty := true }

/-- A concrete event carrying one unhandled exception. -/
def exampleCrashEvent : Event :=
  { level := Level.Error
    exception := { values := [{ mechanism := some { handled := some false } }] } }

/-- Witness for crash_detection at a concrete Ok session and a concrete
crashing event. -/
theorem crash_detection_witness :
    exampleSession.session_update.status = SessionStatus.Ok ∧
    ((exampleSession.update_from_event exampleCrashEvent).session_update.status =
        SessionStatus.Crashed ↔
      ∃ exc ∈ exampleCrashEvent.exception.values, Exception.isUnhandled exc = true) :=
  ⟨rfl, (crash_detection exampleSession exampleCrashEvent rfl).1⟩

/-- C3: starting from status Ok the only transitions performed are Ok
to Crashed (by update_from_event) and Ok to Exited (by close); on a
session whose status is not Ok both operations return the state fully
unchanged. -/
theorem terminal_state_invariant (s : Session) (e : Event) (t : Nat) :
    (s.session_update.status = SessionStatus.Ok →
      ((s.update_from_event e).session_update.status = SessionStatus.Ok ∨
       (s.update_from_event e).session_update.status = SessionStatus.Crashed) ∧
      (s.close t).session_update.status = SessionStatus.Exited)
    ∧ (s.session_update.status ≠ SessionStatus.Ok →
      s.update_from_event e = s ∧ s.close t = s) := by
  constructor
  · intro h
    refine ⟨?_, ?_⟩
    · rw [update_status_ok s e h]
      by_cases hc : e.isCrash = true <;> simp [hc]
    · simp [Session.close, h]
  · intro h
    exact ⟨update_from_event_nonok s e h, by simp [Session.close, h]⟩

/-- Witness for terminal_state_invariant: closing the concrete Ok
session yields Exited. -/
theorem terminal_state_invariant_witness :
    exampleSession.session_update.status = SessionStatus.Ok ∧
    (exampleSession.close 5).session_update.status = SessionStatus.Exited :=
  ⟨rfl, ((terminal_state_invariant exampleSession exampleCrashEvent 5).1 rfl).2⟩

/-- Feeding events to a non-Ok session changes nothing. -/
lemma runEvents_nonok (s : Session) (es : List Event)
    (h : s.session_update.status ≠ SessionStatus.Ok) :
    runEvents s es = s := by
  induction es with
  | nil => rfl
  | cons e rest ih =>
    show runEvents (s.update_from_event e) rest = s
    rw [update_from_event_nonok s e h]
    exact ih

/-- A crash event is in particular an error event: it carries at least
one exception. -/
lemma crash_isError (e : Event) (h : e.isCrash = true) : e.isError = true := by
  simp only [Event.isCrash, List.any_eq_true] at h
  obtain ⟨x, hx, _⟩ := h
  simp only [Event.isError, Bool.or_eq_true]
  right
  cases hv : e.exception.values with
  | nil => rw [hv] at hx; cases hx
  | cons a l => simp [hv]

/-- The error counter after a whole event sequence on an Ok session:
the starting value plus the crash-truncated error count. -/
lemma runEvents_errors (s : Session) (es : List Event)
    (h : s.session_update.status = SessionStatus.Ok) :
    (runEvents s es).session_update.errors =
      s.session_update.errors + countErrors es := by
  induction es generalizing s with
  | nil => simp [runEvents, countErrors]
  | cons e rest ih =>
    show (runEvents (s.update_from_event e) rest).session_update.errors = _
    by_cases hc : e.isCrash = true
    · have hst : (s.update_from_event e).session_update.status = SessionStatus.Crashed := by
        rw [update_status_ok s e h, hc]; rfl
      rw [runEvents_nonok _ rest (by rw [hst]; simp)]
      rw [update_errors_ok s e h]
      simp [countErrors, hc, crash_isError e hc]
    · have hst : (s.update_from_event e).session_update.status = SessionStatus.Ok := by
        rw [update_status_ok s e h]
        simp [hc]
      rw [ih _ hst, update_errors_ok s e h]
      by_cases he : e.isError = true
      · simp [countErrors, hc, he]
        omega
      · simp [countErrors, hc, he]

/-- A single event never decreases the error counter. -/
lemma update_errors_ge (s : Session) (e : Event) :
    s.session_update.errors ≤ (s.update_from_event e).session_update.errors := by
  by_cases h : s.session_update.status = SessionStatus.Ok
  · rw [update_errors_ok s e h]
    by_cases he : e.isError = true <;> simp [he]
  · rw [update_from_event_nonok s e h]

/-- C4: on a fresh session the error counter after any event sequence
equals the number of error events up to and including the first crash
event (later events change nothing), and appending one more event never
decreases the counter. -/
theorem errors_counter (s : Session) (es : List Event) (e : Event)
    (h : s.session_update.status = SessionStatus.Ok)
    (h0 : s.session_update.errors = 0) :
    (runEvents s es).session_update.errors = countErrors es
    ∧ (runEvents s es).session_update.errors ≤
        (runEvents s (es ++ [e])).session_update.errors := by
  constructor
  · rw [runEvents_errors s es h, h0, Nat.zero_add]
  · have happ : runEvents s (es ++ [e]) = (runEvents s es).update_from_event e := by
      simp [runEvents, List.foldl_append]
    rw [happ]
    exact update_errors_ge _ e

/-- Witness for errors_counter: one crashing event on the concrete
fresh session yields exactly one counted error. -/
theorem errors_counter_witness :
    exampleSession.session_update.status = SessionStatus.Ok ∧
    exampleSession.session_update.errors = 0 ∧
    (runEvents exampleSession [exampleCrashEvent]).session_update.errors =
      countErrors [exampleCrashEvent] :=
  ⟨rfl, rfl,
    (errors_counter exampleSession [exampleCrashEvent] exampleCrashEvent rfl rfl).1⟩

/-- One lifecycle step preserves the init discipline of the emission
history. -/
lemma applyOp_initOk (s : Session) (out : List SessionUpdate) (op : SessionOp)
    (h : initOk s out) :
    initOk (applyOp (s, out) op).1 (applyOp (s, out) op).2 := by
  cases op with
  | event e =>
    cases out with
    | nil => simpa [applyOp, initOk, update_init] using h
    | cons u rest => simpa [applyOp, initOk, update_init] using h
  | close t =>
    cases out with
    | nil => simpa [applyOp, initOk, close_init] using h
    | cons u rest => simpa [applyOp, initOk, close_init] using h
  | emit =>
    by_cases hd : s.dirty = true
    · cases out with
      | nil =>
        simp only [initOk] at h
        simp [applyOp, Session.create_envelope_item, hd, initOk, h]
      | cons u rest =>
        obtain ⟨h1, h2, h3⟩ := h
        simp only [applyOp, Session.create_envelope_item, hd, if_true, reduceIte,
          initOk, List.cons_append]
        refine ⟨h1, ?_, by trivial⟩
        intro v hv
        rcases List.mem_append.mp hv with hv | hv
        · exact h2 v hv
        · rw [List.mem_singleton.mp hv]; exact h3
    · cases out with
      | nil => simpa [applyOp, Session.create_envelope_item, hd, initOk] using h
      | cons u rest => simpa [applyOp, Session.create_envelope_item, hd, initOk] using h

/-- Running a whole trace from a fresh session preserves the init
discipline. -/
lemma runOps_initOk (s : Session) (ops : List SessionOp)
    (h : s.session_update.init = true) :
    initOk (runOps s ops).1 (runOps s ops).2 := by
  have main : ∀ (p : Session × List SessionUpdate), initOk p.1 p.2 →
      initOk (ops.foldl applyOp p).1 (ops.foldl applyOp p).2 := by
    induction ops with
    | nil => intro p hp; exact hp
    | cons op rest ih =>
      intro p hp
      obtain ⟨s1, out1⟩ := p
      exact ih _ (applyOp_initOk s1 out1 op hp)
  exact main (s, []) h

/-- C5: from a session whose init flag is set, every lifecycle trace
emits deltas whose first has init true and all later ones init false;
create_envelope_item returns a delta exactly when dirty is set, the
returned delta is the current state, and emission clears both dirty
and init. -/
theorem init_dirty_emission (s : Session) (ops : List SessionOp)
    (h : s.session_update.init = true) :
    initOk (runOps s ops).1 (runOps s ops).2
    ∧ s.create_envelope_item.1.isSome = s.dirty
    ∧ s.create_envelope_item.2.dirty = false
    ∧ (s.dirty = true →
        s.create_envelope_item.1 = some s.session_update ∧
        s.create_envelope_item.2.session_update.init = false) := by
  refine ⟨runOps_initOk s ops h, ?_, ?_, ?_⟩
  · by_cases hd : s.dirty = true <;> simp [Session.create_envelope_item, hd]
  · by_cases hd : s.dirty = true <;> simp [Session.create_envelope_item, hd]
  · intro hd
    simp [Session.create_envelope_item, hd]

/-- Witness for init_dirty_emission on the concrete fresh session and a
one-step emit trace. -/
theorem init_dirty_emission_witness :
    exampleSession.session_update.init = true ∧
    exampleSession.create_envelope_item.1.isSome = exampleSession.dirty :=
  ⟨rfl, (init_dirty_emission exampleSession [SessionOp.emit] rfl).2.1⟩

/-- A concrete init delta (clean exit, no errors). -/
def exampleInitUpdate : SessionUpdate := { exampleUpdate with init := true }

/-- C1 counterexample: a concrete init delta enqueued under aggregated
(Request) mode is not appended to the itemized queue; it is folded into
the aggregate bucket set instead, refuting the claimed routing of init
deltas to the itemized queue. -/
theorem enqueue_routing_counterexample :
    exampleInitUpdate.init = true
    ∧ (SessionFlusher.enqueue ⟨[], none⟩ exampleInitUpdate
        SessionMode.Request true).1.queue = []
    ∧ (SessionFlusher.enqueue ⟨[], none⟩ exampleInitUpdate
        SessionMode.Request true).1.aggregate =
      some { aggregates := [⟨7200, none, 1, 0, 0, 0⟩], attributes := exampleAttrs } :=
  ⟨rfl, rfl, rfl⟩

/-- C1 amended: under itemized (Application) mode every update is
appended to the itemized queue; under aggregated (Request) mode a
non-init delta is appended to the itemized queue, and an init delta is
folded into the aggregate bucket set.  The length bound keeps the
append below the flush threshold so the resulting queue is visible. -/
theorem enqueue_routing (st : FlusherState) (su : SessionUpdate) (ht : Bool)
    (hlen : st.queue.length + 1 < MAX_SESSION_ITEMS) :
    ((SessionFlusher.enqueue st su SessionMode.Application ht).1 =
      { st with queue := st.queue ++ [su] })
    ∧ (su.init = false →
        (SessionFlusher.enqueue st su SessionMode.Request ht).1 =
          { st with queue := st.queue ++ [su] })
    ∧ (su.init = true →
        (SessionFlusher.enqueue st su SessionMode.Request ht).1 =
          { st with aggregate := some (aggFold st.aggregate su) }) := by
  have hnle : ¬ MAX_SESSION_ITEMS ≤ st.queue.length + 1 := by omega
  refine ⟨?_, ?_, ?_⟩
  · simp [SessionFlusher.enqueue, hnle]
  · intro hi
    simp [SessionFlusher.enqueue, hi, hnle]
  · intro hi
    simp [SessionFlusher.enqueue, hi]

/-- Witness for enqueue_routing on an empty flusher and the concrete
non-init update. -/
theorem enqueue_routing_witness :
    (FlusherState.mk [] none).queue.length + 1 < MAX_SESSION_ITEMS ∧
    (SessionFlusher.enqueue ⟨[], none⟩ exampleUpdate
        SessionMode.Application true).1 = ⟨[exampleUpdate], none⟩ :=
  ⟨by decide, (enqueue_routing ⟨[], none⟩ exampleUpdate true (by decide)).1⟩

/-- C9: flush empties the pending state unconditionally, and with no
transport attached it hands nothing to a transport: the envelopes are
silently dropped, never retained, and no error arises. -/
theorem flush_without_transport (st : FlusherState) (ht : Bool) :
    (SessionFlusher.flush st ht).1 = { queue := [], aggregate := none }
    ∧ (SessionFlusher.flush st false).2 = [] := by
  constructor
  · by_cases hq : st.queue.isEmpty = true <;> simp [SessionFlusher.flush, hq]
  · by_cases hq : st.queue.isEmpty = true <;>
      cases ha : st.aggregate <;> simp [SessionFlusher.flush, hq, ha]

/-- Fallback order of the distinct id computed by from_stack: user id,
then email, then username. -/
lemma distinctId_cases (u : User) :
    ((u.id.orElse fun _ => u.email).orElse fun _ => u.username) =
      (match u.id with
       | some i => some i
       | none =>
         match u.email with
         | some m => some m
         | none => u.username) := by
  cases hid : u.id <;> cases hml : u.email <;> simp [Option.orElse]

/-- C10: from_stack creates no session when the stack has no client or
the client options carry no release; when it does create one, the
initial state has status Ok, zero errors, init true and dirty true,
the configured release, and a distinct id taken from the user id,
falling back to email, then username, else none. -/
theorem from_stack_spec (stack : StackLayer) (sid tw tm : Nat) :
    (stack.client = none → Session.from_stack stack sid tw tm = none)
    ∧ (∀ c, stack.client = some c → c.options.release = none →
        Session.from_stack stack sid tw tm = none)
    ∧ (∀ c rel, stack.client = some c → c.options.release = some rel →
        ∃ s, Session.from_stack stack sid tw tm = some s
          ∧ s.session_update.status = SessionStatus.Ok
          ∧ s.session_update.errors = 0
          ∧ s.session_update.init = true
          ∧ s.dirty = true
          ∧ s.session_update.attributes.release = rel
          ∧ s.session_update.distinct_id =
              (match stack.scope.user with
               | none => none
               | some u =>
                 match u.id with
                 | some i => some i
                 | none =>
                   match u.email with
                   | some m => some m
                   | none => u.username)) := by
  refine ⟨?_, ?_, ?_⟩
  · intro h
    simp [Session.from_stack, h]
  · intro c hc hr
    simp [Session.from_stack, hc, hr]
  · intro c rel hc hr
    have hs : Session.from_stack stack sid tw tm = some
      { session_update := {
          session_id := sid
          distinct_id := stack.scope.user.bind fun u =>
            (u.id.orElse fun _ => u.email).orElse fun _ => u.username
          sequence := none
          timestamp := none
          started := tw
          init := true
          duration := none
          status := SessionStatus.Ok
          errors := 0
          attributes := {
            release := rel
            environment := c.options.environment
            ip_address := none
            user_agent := none } }
        started := tm
        dirty := true } := by
      simp [Session.from_stack, hc, hr]
    refine ⟨_, hs, rfl, rfl, rfl, rfl, rfl, ?_⟩
    show (stack.scope.user.bind fun u =>
      (u.id.orElse fun _ => u.email).orElse fun _ => u.username) = _
    cases hu : stack.scope.user with
    | none => rfl
    | some u => simpa [Option.bind] using distinctId_cases u

/-- A concrete stack layer with a client, a release and a user carrying
only email and username. -/
def exampleStack : StackLayer :=
  { client := some { options :=
      { release := some "my-app@1.0.0", environment := some "production" } }
    scope := { user := some {
      id := none, email := some "jane@example.com", username := some "jane" } } }

/-- Witness for from_stack_spec on the concrete stack: a session is
created with the expected initial state and the email fallback. -/
theorem from_stack_spec_witness :
    exampleStack.client = some { options :=
      { release := some "my-app@1.0.0", environment := some "production" } } ∧
    ∃ s, Session.from_stack exampleStack 7 3600 0 = some s
      ∧ s.session_update.status = SessionStatus.Ok
      ∧ s.session_update.errors = 0
      ∧ s.session_update.init = true
      ∧ s.dirty = true
      ∧ s.session_update.attributes.release = "my-app@1.0.0"
      ∧ s.session_update.distinct_id = some "jane@example.com" := by
  refine ⟨rfl, ?_⟩
  obtain ⟨s, h1, h2, h3, h4, h5, h6, h7⟩ :=
    (from_stack_spec exampleStack 7 3600 0).2.2 _ _ rfl rfl
  exact ⟨s, h1, h2, h3, h4, h5, h6, by rw [h7]; rfl⟩

/-- When no bucket matches the key, updateAggregates appends a fresh
zero bucket at the end and bumps it. -/
lemma updateAggregates_nomatch (l : List AggregateItem) (ts : Nat)
    (did : Option String) (stt : SessionStatus) (n : Nat)
    (h : ∀ g ∈ l, AggregateItem.matches g ts did = false) :
    updateAggregates l ts did stt n =
      l ++ [bumpGroup ⟨ts, did, 0, 0, 0, 0⟩ stt n] := by
  induction l with
  | nil => rfl
  | cons g rest ih =>
    have hg := h g (List.mem_cons_self g rest)
    have hrest := ih fun g2 hg2 => h g2 (List.mem_cons_of_mem g hg2)
    simp [updateAggregates, hg, hrest]

/-- When a bucket matches the key, updateAggregates bumps the first
matching bucket in place and leaves every other bucket untouched. -/
lemma updateAggregates_match (pre : List AggregateItem) (g : AggregateItem)
    (suf : List AggregateItem) (ts : Nat) (did : Option String)
    (stt : SessionStatus) (n : Nat)
    (hg : AggregateItem.matches g ts did = true)
    (hpre : ∀ g2 ∈ pre, AggregateItem.matches g2 ts did = false) :
    updateAggregates (pre ++ g :: suf) ts did stt n =
      pre ++ bumpGroup g stt n :: suf := by
  induction pre with
  | nil => simp [updateAggregates, hg]
  | cons p rest ih =>
    have hp := hpre p (List.mem_cons_self p rest)
    have hrest := ih fun g2 hg2 => hpre g2 (List.mem_cons_of_mem p hg2)
    simp [updateAggregates, hp, hrest]

/-- C7: an update on the aggregate path is folded under the key pair of
its hour-truncated started timestamp and its distinct id: enqueue under
Request mode with an init delta rewrites the open aggregate set by
aggFold and leaves the itemized queue alone; folding appends a fresh
bucket when no bucket matches the key and bumps exactly the first
matching bucket otherwise, leaving all other buckets untouched; the
bump increments exactly one counter chosen by the outcome, namely
exited for Exited with zero errors, errored for Exited with errors,
crashed for Crashed, abnormal for Abnormal, and increments nothing for
an Ok update. -/
theorem aggregation_step (st : FlusherState) (su : SessionUpdate) (ht : Bool)
    (hi : su.init = true) :
    ((SessionFlusher.enqueue st su SessionMode.Request ht).1.aggregate =
        some (aggFold st.aggregate su)
      ∧ (SessionFlusher.enqueue st su SessionMode.Request ht).1.queue = st.queue
      ∧ (aggFold st.aggregate su).aggregates =
          updateAggregates
            ((st.aggregate.getD { aggregates := [], attributes := su.attributes }).aggregates)
            (hourTrunc su.started) su.distinct_id su.status su.errors)
    ∧ (∀ (l : List AggregateItem) (ts : Nat) (did : Option String)
          (stt : SessionStatus) (n : Nat),
        ((∀ g ∈ l, AggregateItem.matches g ts did = false) →
          updateAggregates l ts did stt n =
            l ++ [bumpGroup ⟨ts, did, 0, 0, 0, 0⟩ stt n])
        ∧ (∀ pre g suf, l = pre ++ g :: suf →
            AggregateItem.matches g ts did = true →
            (∀ g2 ∈ pre, AggregateItem.matches g2 ts did = false) →
            updateAggregates l ts did stt n = pre ++ bumpGroup g stt n :: suf))
    ∧ (∀ (g : AggregateItem) (n : Nat),
        bumpGroup g SessionStatus.Exited n =
          (if n > 0 then { g with errored := g.errored + 1 }
           else { g with exited := g.exited + 1 })
        ∧ bumpGroup g SessionStatus.Crashed n = { g with crashed := g.crashed + 1 }
        ∧ bumpGroup g SessionStatus.Abnormal n = { g with abnormal := g.abnormal + 1 }
        ∧ bumpGroup g SessionStatus.Ok n = g) := by
  refine ⟨⟨?_, ?_, rfl⟩, ?_, ?_⟩
  · simp [SessionFlusher.enqueue, hi]
  · simp [SessionFlusher.enqueue, hi]
  · intro l ts did stt n
    refine ⟨updateAggregates_nomatch l ts did stt n, ?_⟩
    intro pre g suf hl hg hpre
    rw [hl]
    exact updateAggregates_match pre g suf ts did stt n hg hpre
  · intro g n
    exact ⟨rfl, rfl, rfl, rfl⟩

/-- Witness for aggregation_step: the concrete init delta folds into a
fresh exited bucket. -/
theorem aggregation_step_witness :
    exampleInitUpdate.init = true ∧
    (SessionFlusher.enqueue ⟨[], none⟩ exampleInitUpdate
        SessionMode.Request true).1.aggregate = some (aggFold none exampleInitUpdate) :=
  ⟨rfl, ((aggregation_step ⟨[], none⟩ exampleInitUpdate true rfl).1).1⟩

/-- Folding enqueue steps from any accumulator factors into the run
from an empty output list. -/
lemma enqueueStep_out (mode : SessionMode) (ht : Bool)
    (us : List SessionUpdate) (p : FlusherState × List OutboundUnit) :
    us.foldl (enqueueStep mode ht) p =
      ((enqueueAll p.1 us mode ht).1, p.2 ++ (enqueueAll p.1 us mode ht).2) := by
  induction us generalizing p with
  | nil => simp [enqueueAll]
  | cons u rest ih =>
    rw [List.foldl_cons, ih]
    conv_rhs => rw [enqueueAll, List.foldl_cons, ih]
    simp [enqueueStep]

/-- A sequential enqueue run splits over list concatenation, final
state threading through and sent envelopes concatenating. -/
lemma enqueueAll_append (st : FlusherState) (us vs : List SessionUpdate)
    (mode : SessionMode) (ht : Bool) :
    enqueueAll st (us ++ vs) mode ht =
      ((enqueueAll (enqueueAll st us mode ht).1 vs mode ht).1,
       (enqueueAll st us mode ht).2 ++
         (enqueueAll (enqueueAll st us mode ht).1 vs mode ht).2) := by
  rw [enqueueAll, List.foldl_append]
  rw [show List.foldl (enqueueStep mode ht) (st, []) us = enqueueAll st us mode ht
      from rfl]
  rw [show (enqueueAll st us mode ht) =
      ((enqueueAll st us mode ht).1, (enqueueAll st us mode ht).2) from rfl]
  rw [enqueueStep_out]

/-- An itemized enqueue below the capacity threshold appends to the
queue and sends nothing. -/
lemma enqueue_below_capacity (st : FlusherState) (su : SessionUpdate) (ht : Bool)
    (h : ¬ MAX_SESSION_ITEMS ≤ st.queue.length + 1) :
    SessionFlusher.enqueue st su SessionMode.Application ht =
      ({ st with queue := st.queue ++ [su] }, []) := by
  simp [SessionFlusher.enqueue, h]

/-- An itemized enqueue that reaches the capacity threshold is exactly
one synchronous flush of the pushed queue. -/
lemma enqueue_at_capacity (st : FlusherState) (su : SessionUpdate) (ht : Bool)
    (h : MAX_SESSION_ITEMS ≤ st.queue.length + 1) :
    SessionFlusher.enqueue st su SessionMode.Application ht =
      SessionFlusher.flush ⟨st.queue ++ [su], st.aggregate⟩ ht := by
  simp [SessionFlusher.enqueue, h]

/-- A run of identical itemized enqueues that stays strictly below the
threshold only appends to the queue. -/
lemma enqueueAll_replicate_small (st : FlusherState) (su : SessionUpdate)
    (ht : Bool) (n : Nat) (h : st.queue.length + n < MAX_SESSION_ITEMS) :
    enqueueAll st (List.replicate n su) SessionMode.Application ht =
      ({ st with queue := st.queue ++ List.replicate n su }, []) := by
  induction n generalizing st with
  | zero => simp [enqueueAll]
  | succ k ih =>
    rw [List.replicate_succ, enqueueAll, List.foldl_cons]
    have hstep : enqueueStep SessionMode.Application ht (st, []) su =
        ({ st with queue := st.queue ++ [su] }, []) := by
      simp [enqueueStep, enqueue_below_capacity st su ht (by omega)]
    rw [hstep]
    rw [show List.foldl (enqueueStep SessionMode.Application ht)
        ({ st with queue := st.queue ++ [su] }, []) (List.replicate k su) =
        enqueueAll { st with queue := st.queue ++ [su] } (List.replicate k su)
          SessionMode.Application ht from rfl]
    rw [ih { st with queue := st.queue ++ [su] } (by simp; omega)]
    simp [List.replicate_succ]

/-- The flush loop never splits a queue that fits into one envelope
together with the items already placed. -/
lemma flushLoop_small (l env : List SessionUpdate) (i : Nat)
    (h : i + l.length ≤ MAX_SESSION_ITEMS) :
    flushLoop l env i = [env ++ l] := by
  induction l generalizing env i with
  | nil => simp [flushLoop]
  | cons u rest ih =>
    have hni : ¬ MAX_SESSION_ITEMS ≤ i := by simp at h; omega
    rw [flushLoop, if_neg hni, ih (env ++ [u]) (i + 1) (by simp at h ⊢; omega)]
    simp

/-- Flushing a nonempty itemized queue that fits under the ceiling
sends exactly one envelope holding the whole queue. -/
lemma flush_small (l : List SessionUpdate) (hne : 0 < l.length)
    (hlen : l.length ≤ MAX_SESSION_ITEMS) :
    SessionFlusher.flush ⟨l, none⟩ true =
      (⟨[], none⟩, [OutboundUnit.sessions l]) := by
  have hempty : l.isEmpty = false := by
    cases l with
    | nil => simp at hne
    | cons a t => rfl
  simp [SessionFlusher.flush, hempty, flushLoop_small l [] 0 (by omega)]

/-- One hundred itemized enqueues into an empty flusher: the hundredth
triggers the flush, sending one envelope of one hundred items and
leaving the queue empty. -/
lemma enqueueAll_hundred (su : SessionUpdate) :
    enqueueAll ⟨[], none⟩ (List.replicate 100 su) SessionMode.Application true =
      (⟨[], none⟩, [OutboundUnit.sessions (List.replicate 100 su)]) := by
  have hsplit : List.replicate 100 su = List.replicate 99 su ++ [su] := by
    show List.replicate (99 + 1) su = _
    rw [List.replicate_succ']
  have h99 : enqueueAll ⟨[], none⟩ (List.replicate 99 su) SessionMode.Application true =
      (⟨List.replicate 99 su, none⟩, []) := by
    have h := enqueueAll_replicate_small ⟨[], none⟩ su true 99
      (by simp [MAX_SESSION_ITEMS])
    simpa using h
  have hone : enqueueAll ⟨List.replicate 99 su, none⟩ [su] SessionMode.Application true =
      (⟨[], none⟩, [OutboundUnit.sessions (List.replicate 100 su)]) := by
    simp only [enqueueAll, List.foldl_cons, List.foldl_nil, enqueueStep]
    rw [enqueue_at_capacity ⟨List.replicate 99 su, none⟩ su true
      (by simp [MAX_SESSION_ITEMS])]
    rw [show (FlusherState.mk ((FlusherState.mk (List.replicate 99 su) none).queue ++ [su])
          (FlusherState.mk (List.replicate 99 su) none).aggregate) =
        FlusherState.mk (List.replicate 100 su) none from by rw [hsplit]]
    rw [flush_small (List.replicate 100 su) (by simp) (by simp [MAX_SESSION_ITEMS])]
    rfl
  rw [hsplit, enqueueAll_append, h99]
  show ((enqueueAll ⟨List.replicate 99 su, none⟩ [su] SessionMode.Application true).1,
      [] ++ (enqueueAll ⟨List.replicate 99 su, none⟩ [su] SessionMode.Application true).2) =
    (⟨[], none⟩, [OutboundUnit.sessions (List.replicate 100 su)])
  rw [hone]
  rfl

/-- Two hundred one itemized enqueues into an empty flusher: the two
threshold crossings send one full envelope each, and one update stays
pending. -/
lemma enqueueAll_twohundredone (su : SessionUpdate) :
    enqueueAll ⟨[], none⟩ (List.replicate 201 su) SessionMode.Application true =
      (⟨[su], none⟩,
       [OutboundUnit.sessions (List.replicate 100 su),
        OutboundUnit.sessions (List.replicate 100 su)]) := by
  have hsplit : List.replicate 201 su =
      List.replicate 100 su ++ (List.replicate 100 su ++ List.replicate 1 su) := by
    rw [← List.replicate_add, ← List.replicate_add]
  have hone : enqueueAll ⟨[], none⟩ (List.replicate 1 su) SessionMode.Application true =
      (⟨[su], none⟩, []) := by
    have h := enqueueAll_replicate_small ⟨[], none⟩ su true 1
      (by simp [MAX_SESSION_ITEMS])
    simpa using h
  rw [hsplit, enqueueAll_append, enqueueAll_hundred]
  show ((enqueueAll ⟨[], none⟩ (List.replicate 100 su ++ List.replicate 1 su)
          SessionMode.Application true).1,
      [OutboundUnit.sessions (List.replicate 100 su)] ++
        (enqueueAll ⟨[], none⟩ (List.replicate 100 su ++ List.replicate 1 su)
          SessionMode.Application true).2) =
    (⟨[su], none⟩,
     [OutboundUnit.sessions (List.replicate 100 su),
      OutboundUnit.sessions (List.replicate 100 su)])
  rw [enqueueAll_append, enqueueAll_hundred]
  show ((enqueueAll ⟨[], none⟩ (List.replicate 1 su) SessionMode.Application true).1,
      [OutboundUnit.sessions (List.replicate 100 su)] ++
        ([OutboundUnit.sessions (List.replicate 100 su)] ++
          (enqueueAll ⟨[], none⟩ (List.replicate 1 su) SessionMode.Application true).2)) =
    (⟨[su], none⟩,
     [OutboundUnit.sessions (List.replicate 100 su),
      OutboundUnit.sessions (List.replicate 100 su)])
  rw [hone]
  rfl

/-- C6: an itemized enqueue that brings the queue to the capacity
threshold of one hundred performs exactly one synchronous flush of the
pushed queue before returning; one hundred itemized enqueues into an
empty flusher send exactly one envelope of one hundred items and leave
nothing pending; two hundred one enqueues followed by the final flush
send exactly three envelopes of one hundred, one hundred and one
items. -/
theorem capacity_threshold_chunking (st : FlusherState) (su : SessionUpdate)
    (ht : Bool) (hcap : MAX_SESSION_ITEMS ≤ st.queue.length + 1) :
    SessionFlusher.enqueue st su SessionMode.Application ht =
      SessionFlusher.flush ⟨st.queue ++ [su], st.aggregate⟩ ht
    ∧ (enqueueAll ⟨[], none⟩ (List.replicate 100 su) SessionMode.Application true).2 =
        [OutboundUnit.sessions (List.replicate 100 su)]
    ∧ (enqueueAll ⟨[], none⟩ (List.replicate 100 su) SessionMode.Application true).1 =
        ⟨[], none⟩
    ∧ (enqueueAll ⟨[], none⟩ (List.replicate 201 su) SessionMode.Application true).2 ++
        (SessionFlusher.flush
          (enqueueAll ⟨[], none⟩ (List.replicate 201 su)
            SessionMode.Application true).1 true).2 =
        [OutboundUnit.sessions (List.replicate 100 su),
         OutboundUnit.sessions (List.replicate 100 su),
         OutboundUnit.sessions [su]] := by
  refine ⟨enqueue_at_capacity st su ht hcap, ?_, ?_, ?_⟩
  · rw [enqueueAll_hundred]
  · rw [enqueueAll_hundred]
  · rw [enqueueAll_twohundredone]
    show [OutboundUnit.sessions (List.replicate 100 su),
        OutboundUnit.sessions (List.replicate 100 su)] ++
      (SessionFlusher.flush ⟨[su], none⟩ true).2 =
      [OutboundUnit.sessions (List.replicate 100 su),
       OutboundUnit.sessions (List.replicate 100 su),
       OutboundUnit.sessions [su]]
    rw [flush_small [su] (by simp) (by simp [MAX_SESSION_ITEMS])]
    rfl

/-- Witness for capacity_threshold_chunking: pushing the hundredth item
onto a queue of ninety nine equals an immediate flush. -/
theorem capacity_threshold_chunking_witness :
    MAX_SESSION_ITEMS ≤
      (FlusherState.mk (List.replicate 99 exampleUpdate) none).queue.length + 1 ∧
    SessionFlusher.enqueue ⟨List.replicate 99 exampleUpdate, none⟩ exampleUpdate
        SessionMode.Application true =
      SessionFlusher.flush
        ⟨List.replicate 99 exampleUpdate ++ [exampleUpdate], none⟩ true :=
  ⟨by simp [MAX_SESSION_ITEMS],
   (capacity_threshold_chunking ⟨List.replicate 99 exampleUpdate, none⟩
     exampleUpdate true (by simp [MAX_SESSION_ITEMS])).1⟩
